import Mathlib

/-!
Verification of the crossplane-docs documentation generator.

The Go sources are embedded shallowly:
 - `pkg/generator/generator.go` (XRD documentation) lives in namespace `generator`;
 - the composition documentation generator lives in namespace `composition`;
 - Go's dynamically typed YAML values (`interface`-typed trees accessed by
   runtime type assertions) are embedded as the tagged union `Value`, with Go's
   `map[string]interface` represented as an ordered association list
   (Go map iteration order is unspecified; all theorems below are insensitive
   to the chosen order);
 - Go's `(T, error)` multiple returns are embedded as pairs or `Except`.
-/

/-- Tagged union for a parsed YAML value, the embedding of Go's
dynamically typed `interface` trees.  Numbers are restricted to integers
(no theorem below depends on floating point display). -/
inductive Value : Type where
  | null : Value
  | bool : Bool → Value
  | int : Int → Value
  | str : String → Value
  | seq : List Value → Value
  | map : List (String × Value) → Value
deriving Repr

/-- Display form of a `Value`, the embedding of Go's percent-v formatting used
for defaults and enum members (sequences and maps are approximated; no theorem
depends on their display). -/
def formatValue : Value → String
  | .null => "<nil>"
  | .bool b => cond b "true" "false"
  | .int n => toString n
  | .str s => s
  | .seq xs => "[" ++ String.intercalate " " (xs.attach.map (fun v => formatValue v.1)) ++ "]"
  | .map kvs => "map[" ++ String.intercalate " " (kvs.attach.map (fun kv => kv.1.1 ++ ":" ++ formatValue kv.1.2)) ++ "]"
decreasing_by
  · have := List.sizeOf_lt_of_mem v.2
    simp at this ⊢
    omega
  · have := List.sizeOf_lt_of_mem kv.2
    cases h : kv.1
    simp [h] at this ⊢
    omega

namespace generator

/-- Embedding of the `metav1.ObjectMeta` metadata carried by an XRD; only the
name is retained (nothing in the generator reads any other metadata field). -/
structure ObjectMeta where
  name : String
deriving Repr

/-- Embedding of the Go `OpenAPISchema` struct: the OpenAPI v3 schema node.
Field order: type, description, properties, items, required, default, enum,
minimum, maximum, minItems, maxItems, x-kubernetes-validations.
`properties` is an ordered association list standing for the Go map.
The Go `Minimum`/`Maximum` pointers to float64 are embedded as optional
integers (no claim concerns fractional bounds). -/
inductive OpenAPISchema : Type where
  | mk : String → String → List (String × OpenAPISchema) → Option OpenAPISchema →
         List String → Option Value → List Value →
         Option Int → Option Int → Option Int → Option Int →
         List (List (String × Value)) → OpenAPISchema

def OpenAPISchema.type : OpenAPISchema → String
  | .mk t _ _ _ _ _ _ _ _ _ _ _ => t

def OpenAPISchema.description : OpenAPISchema → String
  | .mk _ d _ _ _ _ _ _ _ _ _ _ => d

def OpenAPISchema.properties : OpenAPISchema → List (String × OpenAPISchema)
  | .mk _ _ p _ _ _ _ _ _ _ _ _ => p

def OpenAPISchema.items : OpenAPISchema → Option OpenAPISchema
  | .mk _ _ _ i _ _ _ _ _ _ _ _ => i

def OpenAPISchema.required : OpenAPISchema → List String
  | .mk _ _ _ _ r _ _ _ _ _ _ _ => r

def OpenAPISchema.default : OpenAPISchema → Option Value
  | .mk _ _ _ _ _ d _ _ _ _ _ _ => d

def OpenAPISchema.enum : OpenAPISchema → List Value
  | .mk _ _ _ _ _ _ e _ _ _ _ _ => e

def OpenAPISchema.minimum : OpenAPISchema → Option Int
  | .mk _ _ _ _ _ _ _ m _ _ _ _ => m

def OpenAPISchema.maximum : OpenAPISchema → Option Int
  | .mk _ _ _ _ _ _ _ _ m _ _ _ => m

def OpenAPISchema.minItems : OpenAPISchema → Option Int
  | .mk _ _ _ _ _ _ _ _ _ m _ _ => m

def OpenAPISchema.maxItems : OpenAPISchema → Option Int
  | .mk _ _ _ _ _ _ _ _ _ _ m _ => m

theorem OpenAPISchema.sizeOf_properties_lt (s : OpenAPISchema) :
    sizeOf s.properties < sizeOf s := by
  cases s with
  | mk t d p i r df e mn mx mni mxi xkv =>
    simp [OpenAPISchema.properties]
    omega

theorem OpenAPISchema.sizeOf_items_lt (s it : OpenAPISchema) (h : s.items = some it) :
    sizeOf it < sizeOf s := by
  cases s with
  | mk t d p i r df e mn mx mni mxi xkv =>
    simp [OpenAPISchema.items] at h
    subst h
    simp
    omega

/-- Embedding of the Go `Field` struct: one documented field row.
Field order: Name, Type, Description, Required, Default, Constraints,
Nested, Level. -/
inductive Field : Type where
  | mk : String → String → String → Bool → String → String → List Field → Nat → Field

def Field.Name : Field → String
  | .mk n _ _ _ _ _ _ _ => n

def Field.type : Field → String
  | .mk _ t _ _ _ _ _ _ => t

def Field.Description : Field → String
  | .mk _ _ d _ _ _ _ _ => d

def Field.Required : Field → Bool
  | .mk _ _ _ r _ _ _ _ => r

def Field.Default : Field → String
  | .mk _ _ _ _ d _ _ _ => d

def Field.Constraints : Field → String
  | .mk _ _ _ _ _ c _ _ => c

def Field.Nested : Field → List Field
  | .mk _ _ _ _ _ _ n _ => n

def Field.Level : Field → Nat
  | .mk _ _ _ _ _ _ _ l => l

/-- Embedding of the Go `XRDNames` struct. -/
structure XRDNames where
  Kind : String
  Plural : String
  Singular : String
deriving Repr

/-- Embedding of the Go `XRDVersionSchema` struct. -/
structure XRDVersionSchema where
  OpenAPIV3Schema : OpenAPISchema

/-- Embedding of the Go `XRDVersion` struct. -/
structure XRDVersion where
  Name : String
  Served : Bool
  Referenceable : Bool
  Schema : XRDVersionSchema
  AdditionalPrinterColumns : List (List (String × Value))

/-- Embedding of the Go `XRDSpec` struct. -/
structure XRDSpec where
  Group : String
  Names : XRDNames
  ClaimNames : Option XRDNames
  Versions : List XRDVersion

/-- Embedding of the Go `XRD` struct. -/
structure XRD where
  APIVersion : String
  Kind : String
  Metadata : ObjectMeta
  Spec : XRDSpec

/-- Embedding of the Go `Options` struct of the XRD generator. -/
structure Options where
  ShowNested : Bool
deriving Repr

/-- Embedding of the Go helper `contains`: linear membership scan over the
required-name list. -/
def contains : List String → String → Bool
  | [], _ => false
  | s :: rest, item => if s == item then true else contains rest item

/-- Embedding of `formatType`: arrays with items display as list of the item
type, objects display as the literal object, a node reached past those two
tests with a non-empty enum displays as string, and any other node displays
its raw declared type string. -/
def formatType (schema : OpenAPISchema) : String :=
  match schema with
  | .mk "array" _ _ (some it) _ _ _ _ _ _ _ _ => "list(" ++ formatType it ++ ")"
  | .mk ty _ _ _ _ _ enum _ _ _ _ _ =>
    if ty == "object" then "object"
    else if enum.length > 0 then "string"
    else ty
termination_by sizeOf schema

/-- Embedding of `formatDefault`: nil displays as the empty string, any other
value by its percent-v display. -/
def formatDefault : Option Value → String
  | none => ""
  | some v => formatValue v

/-- Embedding of `formatConstraints`: the comma-joined constraint list in the
fixed order enum, minimum, maximum, minItems, maxItems. -/
def formatConstraints (schema : OpenAPISchema) : String :=
  let enumPart : List String :=
    if schema.enum.length > 0 then
      ["Allowed: " ++ String.intercalate ", " (schema.enum.map (fun v => "`" ++ formatValue v ++ "`"))]
    else []
  let minPart : List String :=
    match schema.minimum with
    | some m => ["Min: " ++ toString m]
    | none => []
  let maxPart : List String :=
    match schema.maximum with
    | some m => ["Max: " ++ toString m]
    | none => []
  let minItemsPart : List String :=
    match schema.minItems with
    | some m => ["MinItems: " ++ toString m]
    | none => []
  let maxItemsPart : List String :=
    match schema.maxItems with
    | some m => ["MaxItems: " ++ toString m]
    | none => []
  String.intercalate ", " (enumPart ++ minPart ++ maxPart ++ minItemsPart ++ maxItemsPart)

/-- Shared per-property loop body of `extractFields` and `extractNestedFields`:
walk an association list of properties, building one `Field` per property,
with required-ness tested against the supplied parent required list and,
when showNested holds and the property is an object with properties of its
own, nested children extracted at the next level from the property's own
required list. -/
def extractFieldList (showNested : Bool) (level : Nat) (required : List String)
    (props : List (String × OpenAPISchema)) : List Field :=
  match props with
  | [] => []
  | (name, prop) :: rest =>
    Field.mk name (formatType prop) prop.description (contains required name)
      (formatDefault prop.default) (formatConstraints prop)
      (if showNested && prop.type == "object" && !prop.properties.isEmpty then
        extractFieldList showNested (level + 1) prop.required prop.properties
      else [])
      level
    :: extractFieldList showNested level required rest
termination_by sizeOf props
decreasing_by
  · have h1 : sizeOf prop.properties < sizeOf prop := OpenAPISchema.sizeOf_properties_lt prop
    simp
    omega
  · simp

/-- Embedding of `extractNestedFields`: extract every property of an object
schema node as a `Field` at the given level, testing required-ness against
that node's own required list. -/
def extractNestedFields (schema : OpenAPISchema) (level : Nat) (showNested : Bool) : List Field :=
  extractFieldList showNested level schema.required schema.properties

/-- Embedding of `extractFields`: locate the target section (spec or status)
among the root properties and extract its immediate children; an absent
section or a section without properties yields the empty list.  The
`required` parameter is carried by the Go signature but never read. -/
def extractFields (schema : OpenAPISchema) (sectionName : String)
    (required : List String) (level : Nat) (showNested : Bool) : List Field :=
  match schema.properties.lookup sectionName with
  | none => []
  | some targetProp =>
    if targetProp.properties.isEmpty then []
    else extractFieldList showNested level targetProp.required targetProp.properties

/-- Version-selection loop of `Generate`: the first version whose served flag
holds, else the first declared version, else none when no version exists. -/
def selectVersion (versions : List XRDVersion) : Option XRDVersion :=
  match versions.find? (fun v => v.Served) with
  | some v => some v
  | none => versions.head?

/-- Strict comparison used by the sort of spec fields: required fields order
before optional ones, names break ties ascending. -/
def specLess (a b : Field) : Bool :=
  if a.Required != b.Required then a.Required else decide (a.Name < b.Name)

/-- Non-strict counterpart of `specLess`, the order handed to the stable
merge sort that embeds the Go slice sort of spec fields. -/
def specFieldLE (a b : Field) : Bool := !(specLess b a)

/-- Strict comparison used by the sort of status fields: names ascending. -/
def statusLess (a b : Field) : Bool := decide (a.Name < b.Name)

/-- Non-strict counterpart of `statusLess`. -/
def statusFieldLE (a b : Field) : Bool := !(statusLess b a)

/-- Pre-render sort of the top-level spec field list, embedding the Go
slice sort by required descending then name ascending. -/
def sortSpecFields (fields : List Field) : List Field :=
  fields.mergeSort specFieldLE

/-- Pre-render sort of the status field list, embedding the Go slice sort by
name ascending, guarded exactly as the source guards it on a non-empty list. -/
def sortStatusFields (fields : List Field) : List Field :=
  if 0 < fields.length then fields.mergeSort statusFieldLE else fields

/-- Embedding of `flattenFields`: pre-order flattening of the nested field
tree for tabular display. -/
def flattenFields : List Field → List Field
  | [] => []
  | field :: rest =>
    field
    :: ((if field.Nested.length > 0 then flattenFields field.Nested else [])
        ++ flattenFields rest)
termination_by fields => sizeOf fields
decreasing_by
  · have : sizeOf field.Nested < sizeOf field := by
      cases field
      simp [Field.Nested]
      omega
    simp
    omega
  · simp

/-- Repeat a string a number of times, embedding Go strings.Repeat. -/
def repeatString (s : String) : Nat → String
  | 0 => ""
  | n + 1 => s ++ repeatString s n

/-- The indent template helper: a fixed-width marker repeated level times
followed by the directional glyph. -/
def indentMarker (level : Nat) : String :=
  repeatString "&nbsp;&nbsp;" level ++ "↳ "

/-- One spec-field table row of the markdown template. -/
def renderSpecRow (f : Field) : String :=
  "| " ++ (if f.Level > 0 then indentMarker f.Level else "") ++ f.Name
  ++ " | " ++ f.type ++ " | " ++ f.Description
  ++ " | " ++ (if f.Required then "✅" else "❌")
  ++ " | " ++ (if f.Default != "" then "`" ++ f.Default ++ "`" else "-")
  ++ " | " ++ (if f.Constraints != "" then f.Constraints else "-")
  ++ " |\n"

/-- One status-field table row of the markdown template. -/
def renderStatusRow (f : Field) : String :=
  "| " ++ (if f.Level > 0 then indentMarker f.Level else "") ++ f.Name
  ++ " | " ++ f.type ++ " | " ++ f.Description ++ " |\n"

/-- Embedding of the XRD `generateMarkdown`: sort the spec fields by
required then name, sort a non-empty status field list by name, flatten
both, and render the fixed template.  Rendering the fixed template cannot
fail, so the Go string-and-error pair degenerates to a total string. -/
def generateMarkdown (xrd : XRD) (version : XRDVersion)
    (specFields0 statusFields0 : List Field) : String :=
  let specFields := sortSpecFields specFields0
  let statusFields := sortStatusFields statusFields0
  let flatSpecFields := flattenFields specFields
  let flatStatusFields := flattenFields statusFields
  "# " ++ xrd.Spec.Names.Kind ++ "\n\n"
  ++ version.Schema.OpenAPIV3Schema.description ++ "\n\n"
  ++ "**API Group:** " ++ xrd.Spec.Group ++ "  \n"
  ++ "**API Version:** " ++ version.Name ++ "  \n"
  ++ "**Kind:** " ++ xrd.Spec.Names.Kind ++ "  \n"
  ++ (match xrd.Spec.ClaimNames with
      | some cn => "**Claim Kind:** " ++ cn.Kind ++ "  "
      | none => "") ++ "\n\n"
  ++ "## Spec Fields\n\n"
  ++ "| Name | Type | Description | Required | Default | Constraints |\n"
  ++ "|------|------|-------------|----------|---------|-------------|\n"
  ++ String.join (flatSpecFields.map renderSpecRow)
  ++ "\n"
  ++ (if !flatStatusFields.isEmpty then
        "\n## Status Fields\n\n"
        ++ "| Name | Type | Description |\n"
        ++ "|------|------|-------------|\n"
        ++ String.join (flatStatusFields.map renderStatusRow)
        ++ "\n\n"
      else "\n")
  ++ "## Example\n\n"
  ++ "```yaml\n"
  ++ "apiVersion: " ++ xrd.Spec.Group ++ "/" ++ version.Name ++ "\n"
  ++ "kind: " ++ (match xrd.Spec.ClaimNames with
                  | some cn => cn.Kind
                  | none => xrd.Spec.Names.Kind) ++ "\n"
  ++ "metadata:\n  name: example\nspec:\n  # Add your spec fields here\n```\n"

/-- Embedding of the XRD `Generate`: Go returns the pair of a markdown string
and an error; an empty version list is the hard failure, returned with an
empty markdown string; otherwise the selected version is documented and the
error component is empty. -/
def Generate (xrd : XRD) (opts : Options) : String × Option String :=
  match selectVersion xrd.Spec.Versions with
  | none => ("", some "no versions found in XRD")
  | some version =>
    let specFields := extractFields version.Schema.OpenAPIV3Schema "spec" [] 0 opts.ShowNested
    let statusFields := extractFields version.Schema.OpenAPIV3Schema "status" [] 0 opts.ShowNested
    (generateMarkdown xrd version specFields statusFields, none)

end generator

namespace composition

/-- Embedding of the Go `CompositeTypeRef` struct. -/
structure CompositeTypeRef where
  APIVersion : String
  Kind : String
deriving Repr

/-- Embedding of the Go `StringFmt` struct. -/
structure StringFmt where
  Fmt : String
deriving Repr

/-- Embedding of the Go `Variable` struct. -/
structure Variable where
  FromFieldPath : String
deriving Repr

/-- Embedding of the Go `Combine` struct; the last field embeds the Go
pointer field named String. -/
structure Combine where
  Variables : List Variable
  Strategy : String
  String : Option StringFmt
deriving Repr

/-- Embedding of the Go `Patch` struct.  The Go field named Type is spelled
`type` here. -/
structure Patch where
  type : String
  FromFieldPath : String
  ToFieldPath : String
  Combine : Option Combine
  Policy : List (String × Value)

/-- Embedding of the Go `ConnectionDetail` struct. -/
structure ConnectionDetail where
  Name : String
  type : String
  FromConnectionSecretKey : String
  FromFieldPath : String
deriving Repr

/-- Embedding of the Go `Resource` struct; the untyped base object is a
`Value` mapping. -/
structure Resource where
  Name : String
  Base : List (String × Value)
  Patches : List Patch
  ConnectionDetails : List ConnectionDetail

/-- Embedding of the Go `FunctionRef` struct. -/
structure FunctionRef where
  Name : String
deriving Repr

/-- Embedding of the Go `PipelineStep` struct. -/
structure PipelineStep where
  Step : String
  FunctionRef : FunctionRef
  Input : List (String × Value)

/-- Embedding of the Go `CompositionSpec` struct. -/
structure CompositionSpec where
  CompositeTypeRef : CompositeTypeRef
  Mode : String
  Resources : List Resource
  Pipeline : List PipelineStep

/-- Embedding of the Go `Composition` struct. -/
structure Composition where
  APIVersion : String
  Kind : String
  Metadata : List (String × Value)
  Spec : CompositionSpec

/-- Embedding of the Go `PatchInfo` struct. -/
structure PatchInfo where
  XRDField : String
  MappedTo : String
  Transformation : String
deriving Repr, DecidableEq

/-- Embedding of the Go `ManagedResource` struct. -/
structure ManagedResource where
  Name : String
  Kind : String
  APIVersion : String
  Description : String
  Patches : List PatchInfo
deriving Repr, DecidableEq

/-- Embedding of the Go `Options` struct of the composition generator. -/
structure Options where
  ShowPatches : Bool
deriving Repr

/-- Embedding of the Go helper `getString`: look a key up in an untyped
mapping and return its value when that value is a string, the empty string
otherwise. -/
def getString (m : List (String × Value)) (key : String) : String :=
  match m.lookup key with
  | some (.str v) => v
  | _ => ""

/-- Loop body of `getStringFromMap`: descend through nested mappings
segment by segment; on the last segment return the string value if the
value is a string; any missing segment or non-mapping value yields the
empty string. -/
def lookupPath : List (String × Value) → List String → String
  | _, [] => ""
  | current, [k] =>
    match current.lookup k with
    | some (.str v) => v
    | _ => ""
  | current, k :: rest =>
    match current.lookup k with
    | some (.map next) => lookupPath next rest
    | _ => ""

/-- Embedding of the Go helper `getStringFromMap`: dotted-path string lookup
in an untyped mapping. -/
def getStringFromMap (m : List (String × Value)) (key : String) : String :=
  lookupPath m (key.splitOn ".")

/-- Embedding of `formatTransformation`: a combine format string when
present, the direct-copy label for the two composite field-path patch types,
and the raw patch type string otherwise. -/
def formatTransformation (p : Patch) : String :=
  match p.Combine.bind (fun c => c.String) with
  | some sf => sf.Fmt
  | none =>
    if p.type == "FromCompositeFieldPath" || p.type == "ToCompositeFieldPath" then
      "Direct copy"
    else p.type

/-- Embedding of `extractPatches` (static typed path): every patch yields a
`PatchInfo` carrying its from-path, to-path, and classified transformation;
no patch is filtered out. -/
def extractPatches (patches : List Patch) : List PatchInfo :=
  patches.map (fun p =>
    { XRDField := p.FromFieldPath
      MappedTo := p.ToFieldPath
      Transformation := formatTransformation p })

/-- Embedding of `parsePatchesFromInterface` (generic-map path): entries that
are not mappings are skipped; the transformation is a combine format string
when the combine mapping carries one, stays empty when the combine mapping is
present but carries none, and is the direct-copy label when no combine
mapping is present and the from-path is non-empty; the built record is kept
only when at least one of the from-path and to-path is non-empty. -/
def parsePatchesFromInterface (patches : List Value) : List PatchInfo :=
  patches.filterMap (fun p =>
    match p with
    | .map patchMap =>
      let xrdField := getString patchMap "fromFieldPath"
      let mappedTo := getString patchMap "toFieldPath"
      let transformation :=
        match patchMap.lookup "combine" with
        | some (.map combine) =>
          (match combine.lookup "string" with
           | some (.map strMap) =>
             (match strMap.lookup "fmt" with
              | some (.str f) => f
              | _ => "")
           | _ => "")
        | _ => if xrdField != "" then "Direct copy" else ""
      if xrdField != "" || mappedTo != "" then
        some { XRDField := xrdField, MappedTo := mappedTo, Transformation := transformation }
      else none
    | _ => none)

/-- Embedding of `parseResource`: name from the resource mapping, kind and
apiVersion from its base mapping when that base is a mapping, and patches
parsed from the generic patch list when the show-patches option holds. -/
def parseResource (resMap : List (String × Value)) (opts : Options) : ManagedResource :=
  let kindAV : String × String :=
    match resMap.lookup "base" with
    | some (.map base) => (getString base "kind", getString base "apiVersion")
    | _ => ("", "")
  { Name := getString resMap "name"
    Kind := kindAV.1
    APIVersion := kindAV.2
    Description := ""
    Patches :=
      if opts.ShowPatches then
        match resMap.lookup "patches" with
        | some (.seq patches) => parsePatchesFromInterface patches
        | _ => []
      else [] }

/-- Embedding of `extractResources` (static resources mode): one
`ManagedResource` per resource, kind and apiVersion read from the base by
dotted-path lookup, patches extracted when the show-patches option holds. -/
def extractResources (resources : List Resource) (opts : Options) : List ManagedResource :=
  resources.map (fun res =>
    { Name := res.Name
      Kind := getStringFromMap res.Base "kind"
      APIVersion := getStringFromMap res.Base "apiVersion"
      Description := ""
      Patches := if opts.ShowPatches then extractPatches res.Patches else [] })

/-- Per-step loop body of `extractPipelineResources`: when the step's input
carries a resources sequence, parse each mapping entry of that sequence and
append; any other shape contributes nothing. -/
def pipelineStepFold (opts : Options) (resources : List ManagedResource)
    (step : PipelineStep) : List ManagedResource :=
  match step.Input.lookup "resources" with
  | some (.seq input) =>
    resources ++ input.filterMap (fun r =>
      match r with
      | .map resMap => some (parseResource resMap opts)
      | _ => none)
  | _ => resources

/-- Embedding of `extractPipelineResources` (pipeline mode): scan each
pipeline step's input for a resources sequence and parse each mapping entry,
appending in step order. -/
def extractPipelineResources (comp : Composition) (opts : Options) : List ManagedResource :=
  comp.Spec.Pipeline.foldl (pipelineStepFold opts) []

/-- Resource-extraction dispatch of the composition `Generate`: pipeline
extraction exactly when the mode is Pipeline and the pipeline step list is
non-empty, static extraction otherwise. -/
def extractedResources (comp : Composition) (opts : Options) : List ManagedResource :=
  if comp.Spec.Mode == "Pipeline" && comp.Spec.Pipeline.length > 0 then
    extractPipelineResources comp opts
  else
    extractResources comp.Spec.Resources opts

/-- Strict comparison of the resource sort: names ascending. -/
def resourceLess (a b : ManagedResource) : Bool := decide (a.Name < b.Name)

/-- Non-strict counterpart of `resourceLess`, handed to the stable merge
sort embedding the Go slice sort of resources. -/
def resourceLE (a b : ManagedResource) : Bool := !(resourceLess b a)

/-- Field-mapping subsection of the composition template for one resource. -/
def renderResourceMapping (r : ManagedResource) : String :=
  "\n### " ++ r.Name ++ " (" ++ r.Kind ++ ")\n"
  ++ (if !r.Patches.isEmpty then
        "\n| XRD Field | Mapped To | Transformation |\n"
        ++ "|-----------|-----------|----------------|\n"
        ++ String.join (r.Patches.map (fun p =>
             "| " ++ (if p.XRDField != "" then p.XRDField else "-")
             ++ " | " ++ p.MappedTo ++ " | " ++ p.Transformation ++ " |\n"))
        ++ "\n"
      else "\nNo patches defined.\n")
  ++ "\n"

/-- Embedding of the composition `generateMarkdown`: sort the resources by
name and render the fixed template; rendering the fixed template cannot
fail, so the Go string-and-error pair degenerates to a total string. -/
def generateMarkdown (comp : Composition) (resources0 : List ManagedResource)
    (opts : Options) : String :=
  let resources := resources0.mergeSort resourceLE
  let name :=
    match comp.Metadata.lookup "name" with
    | some (.str s) => s
    | _ => "unknown"
  "# " ++ comp.Spec.CompositeTypeRef.Kind ++ " Composition\n\n"
  ++ "**Composition Name:** " ++ name ++ "  \n"
  ++ "**Composite Type:** " ++ comp.Spec.CompositeTypeRef.APIVersion ++ "/"
  ++ comp.Spec.CompositeTypeRef.Kind ++ "  \n"
  ++ (if comp.Spec.Mode != "" then "**Mode:** " ++ comp.Spec.Mode else "") ++ "\n\n"
  ++ "## Managed Resources\n\n"
  ++ "This composition creates " ++ toString resources.length ++ " managed resource(s):\n\n"
  ++ "| Resource Name | Kind | API Version |\n"
  ++ "|---------------|------|-------------|\n"
  ++ String.join (resources.map (fun r =>
       "| " ++ r.Name ++ " | " ++ r.Kind ++ " | " ++ r.APIVersion ++ " |\n"))
  ++ "\n"
  ++ (if opts.ShowPatches then
        "\n## Field Mappings\n"
        ++ String.join (resources.map renderResourceMapping)
        ++ "\n"
      else "\n")

/-- Embedding of the composition `Generate`: extract the resources by mode
and render; the error component of the Go pair is always empty because
rendering the fixed template cannot fail. -/
def Generate (comp : Composition) (opts : Options) : String × Option String :=
  (generateMarkdown comp (extractedResources comp opts) opts, none)

end composition

/-! Helper lemmas. -/

theorem selectVersion_first_served (pre : List generator.XRDVersion)
    (v : generator.XRDVersion) (post : List generator.XRDVersion)
    (hpre : ∀ u ∈ pre, u.Served = false) (hv : v.Served = true) :
    generator.selectVersion (pre ++ v :: post) = some v := by
  induction pre with
  | nil =>
    simp [generator.selectVersion, List.find?, hv]
  | cons u rest ih =>
    have hu : u.Served = false := hpre u (List.mem_cons_self u rest)
    have hrest : ∀ w ∈ rest, w.Served = false := fun w hw => hpre w (List.mem_cons_of_mem u hw)
    have := ih hrest
    simp only [generator.selectVersion] at this ⊢
    rw [List.cons_append, List.find?_cons_of_neg _ (by simp [hu])]
    cases hfind : ((rest ++ v :: post).find? fun w => w.Served) with
    | some w => rw [hfind] at this; simpa using this
    | none =>
      exfalso
      have := List.find?_eq_none.mp hfind v (by simp)
      simp [hv] at this

theorem selectVersion_none_served (vs : List generator.XRDVersion)
    (h : ∀ u ∈ vs, u.Served = false) :
    generator.selectVersion vs = vs.head? := by
  have hfind : (vs.find? fun u => u.Served) = none :=
    List.find?_eq_none.mpr (fun u hu => by simp [h u hu])
  simp [generator.selectVersion, hfind]

/-! Theorems settling the claims. -/

/-- C2: for every schema node, an array type with items present formats as
list of the formatted items type, recursing into items; an object type
formats as the literal object; past those two tests a non-empty enum forces
string; otherwise the declared type string passes through verbatim, the
empty string included; in particular an integer-typed node with enum
members formats as string. -/
theorem c2_format_type_classification :
    (∀ s it : generator.OpenAPISchema, s.type = "array" → s.items = some it →
      generator.formatType s = "list(" ++ generator.formatType it ++ ")")
  ∧ (∀ s : generator.OpenAPISchema, s.type = "object" →
      generator.formatType s = "object")
  ∧ (∀ s : generator.OpenAPISchema, (s.type = "array" → s.items = none) →
      s.type ≠ "object" → s.enum ≠ [] → generator.formatType s = "string")
  ∧ (∀ s : generator.OpenAPISchema, (s.type = "array" → s.items = none) →
      s.type ≠ "object" → s.enum = [] → generator.formatType s = s.type)
  ∧ generator.formatType
      (.mk "integer" "" [] none [] none [.int 1, .int 2] none none none none []) = "string" := by
  refine ⟨?_, ?_, ?_, ?_, ?_⟩
  · intro s it h1 h2
    cases s with
    | mk ty d p items req df en mn mx mni mxi xkv =>
      simp only [generator.OpenAPISchema.type] at h1
      simp only [generator.OpenAPISchema.items] at h2
      subst h1; subst h2
      simp [generator.formatType]
  · intro s h
    cases s with
    | mk ty d p items req df en mn mx mni mxi xkv =>
      simp only [generator.OpenAPISchema.type] at h
      subst h
      cases items <;> simp [generator.formatType]
  · intro s h1 h2 h3
    cases s with
    | mk ty d p items req df en mn mx mni mxi xkv =>
      simp only [generator.OpenAPISchema.type] at h1 h2
      simp only [generator.OpenAPISchema.enum] at h3
      by_cases hty : ty = "array"
      · have : items = none := by
          simpa [generator.OpenAPISchema.items] using h1 hty
        subst this; subst hty
        simp [generator.formatType, h3, List.length_pos.mpr h3]
      · cases items with
        | none => simp [generator.formatType, hty, h2, List.length_pos.mpr h3]
        | some it => simp [generator.formatType, hty, h2, List.length_pos.mpr h3]
  · intro s h1 h2 h3
    cases s with
    | mk ty d p items req df en mn mx mni mxi xkv =>
      simp only [generator.OpenAPISchema.type] at h1 h2 ⊢
      simp only [generator.OpenAPISchema.enum] at h3
      subst h3
      by_cases hty : ty = "array"
      · have : items = none := by
          simpa [generator.OpenAPISchema.items] using h1 hty
        subst this; subst hty
        simp [generator.formatType]
      · cases items with
        | none => simp [generator.formatType, hty, h2]
        | some it => simp [generator.formatType, hty, h2]
  · simp [generator.formatType]

/-- Witness for C2 at the array-of-string schema node. -/
theorem c2_format_type_classification_witness :
    generator.formatType
      (.mk "array" "" [] (some (.mk "string" "" [] none [] none [] none none none none []))
        [] none [] none none none none [])
    = "list("
      ++ generator.formatType (.mk "string" "" [] none [] none [] none none none none [])
      ++ ")" :=
  c2_format_type_classification.1 _ _ rfl rfl

/-- C4: generation documents the first version in declaration order whose
served flag holds, or the first declared version when none is served; with
two versions of which only the second is served, the second version's
schema is the one documented. -/
theorem c4_version_selection :
    (∀ (pre : List generator.XRDVersion) (v : generator.XRDVersion)
        (post : List generator.XRDVersion),
        (∀ u ∈ pre, u.Served = false) → v.Served = true →
        generator.selectVersion (pre ++ v :: post) = some v)
  ∧ (∀ vs : List generator.XRDVersion, (∀ u ∈ vs, u.Served = false) →
        generator.selectVersion vs = vs.head?)
  ∧ (∀ (xrd : generator.XRD) (opts : generator.Options)
        (v1 v2 : generator.XRDVersion),
        xrd.Spec.Versions = [v1, v2] → v1.Served = false → v2.Served = true →
        (generator.Generate xrd opts).1 =
          generator.generateMarkdown xrd v2
            (generator.extractFields v2.Schema.OpenAPIV3Schema "spec" [] 0 opts.ShowNested)
            (generator.extractFields v2.Schema.OpenAPIV3Schema "status" [] 0 opts.ShowNested)) := by
  refine ⟨selectVersion_first_served, selectVersion_none_served, ?_⟩
  intro xrd opts v1 v2 hvs h1 h2
  have hsel : generator.selectVersion xrd.Spec.Versions = some v2 := by
    rw [hvs]
    exact selectVersion_first_served [v1] v2 [] (by simpa using h1) h2
  simp [generator.Generate, hsel]

/-- Witness for C4 at a two-version XRD of which only the second is served. -/
theorem c4_version_selection_witness :
    generator.selectVersion
      [⟨"v1", false, false, ⟨.mk "object" "" [] none [] none [] none none none none []⟩, []⟩,
       ⟨"v2", true, true, ⟨.mk "object" "" [] none [] none [] none none none none []⟩, []⟩]
    = some ⟨"v2", true, true, ⟨.mk "object" "" [] none [] none [] none none none none []⟩, []⟩ :=
  c4_version_selection.1
    [⟨"v1", false, false, ⟨.mk "object" "" [] none [] none [] none none none none []⟩, []⟩]
    ⟨"v2", true, true, ⟨.mk "object" "" [] none [] none [] none none none none []⟩, []⟩
    [] (by simp) rfl

/-- C6: flattening is pre-order and order preserving: each field is emitted
verbatim, then its entire nested subtree depth first, before the next
sibling; on the concrete shape F with nested children A and B where A has
nested child A1 the flattening is F, A, A1, B, every emitted record (its
level value included) unchanged. -/
theorem c6_flatten_preorder :
    (∀ (f : generator.Field) (rest : List generator.Field),
        generator.flattenFields (f :: rest) =
          f :: (generator.flattenFields f.Nested ++ generator.flattenFields rest))
  ∧ generator.flattenFields
      [.mk "f" "object" "" false "" ""
        [.mk "a" "object" "" false "" "" [.mk "a1" "string" "" false "" "" [] 2] 1,
         .mk "b" "string" "" false "" "" [] 1] 0]
    = [.mk "f" "object" "" false "" ""
        [.mk "a" "object" "" false "" "" [.mk "a1" "string" "" false "" "" [] 2] 1,
         .mk "b" "string" "" false "" "" [] 1] 0,
       .mk "a" "object" "" false "" "" [.mk "a1" "string" "" false "" "" [] 2] 1,
       .mk "a1" "string" "" false "" "" [] 2,
       .mk "b" "string" "" false "" "" [] 1] := by
  constructor
  · intro f rest
    by_cases h : f.Nested = []
    · simp [generator.flattenFields, h]
    · have hl : f.Nested.length > 0 := List.length_pos.mpr h
      simp [generator.flattenFields, hl]
  · simp [generator.flattenFields, generator.Field.Nested]

/-- Witness for C6 at a childless singleton. -/
theorem c6_flatten_preorder_witness :
    generator.flattenFields [.mk "g" "string" "" false "" "" [] 0]
    = .mk "g" "string" "" false "" "" [] 0
      :: (generator.flattenFields (generator.Field.mk "g" "string" "" false "" "" [] 0).Nested
          ++ generator.flattenFields []) :=
  c6_flatten_preorder.1 (.mk "g" "string" "" false "" "" [] 0) []

/-- C9: an XRD with an empty version list makes generation fail with the
descriptive no-versions error and an empty result string; an XRD with at
least one version never raises this error. -/
theorem c9_empty_versions_error :
    (∀ (xrd : generator.XRD) (opts : generator.Options), xrd.Spec.Versions = [] →
        generator.Generate xrd opts = ("", some "no versions found in XRD"))
  ∧ (∀ (xrd : generator.XRD) (opts : generator.Options), xrd.Spec.Versions ≠ [] →
        (generator.Generate xrd opts).2 = none) := by
  constructor
  · intro xrd opts h
    simp [generator.Generate, generator.selectVersion, h]
  · intro xrd opts h
    cases hv : xrd.Spec.Versions with
    | nil => exact absurd hv h
    | cons v vs =>
      cases hf : ((v :: vs).find? fun u => u.Served) with
      | some w => simp [generator.Generate, generator.selectVersion, hv, hf]
      | none => simp [generator.Generate, generator.selectVersion, hv, hf]

/-- Witness for C9: the empty-version failure at a concrete XRD, and the
absence of the error at a concrete one-version XRD. -/
theorem c9_empty_versions_error_witness :
    generator.Generate ⟨"av", "XRD", ⟨"m"⟩, ⟨"g", ⟨"K", "ks", ""⟩, none, []⟩⟩ ⟨true⟩
      = ("", some "no versions found in XRD")
  ∧ (generator.Generate
      ⟨"av", "XRD", ⟨"m"⟩,
       ⟨"g", ⟨"K", "ks", ""⟩, none,
        [⟨"v1", true, true, ⟨.mk "object" "" [] none [] none [] none none none none []⟩, []⟩]⟩⟩
      ⟨true⟩).2 = none :=
  ⟨c9_empty_versions_error.1 _ _ rfl, c9_empty_versions_error.2 _ _ (by simp)⟩

/-- C10: a composition whose mode is Pipeline but whose pipeline step list
is empty falls back to the static resources list, extracted exactly as in
non-pipeline mode, one managed resource per static resource rather than
zero. -/
theorem c10_pipeline_empty_fallback :
    (∀ (comp : composition.Composition) (opts : composition.Options),
        comp.Spec.Mode = "Pipeline" → comp.Spec.Pipeline = [] →
        composition.extractedResources comp opts =
          composition.extractResources comp.Spec.Resources opts)
  ∧ (∀ (comp : composition.Composition) (opts : composition.Options),
        comp.Spec.Mode = "Pipeline" → comp.Spec.Pipeline = [] →
        (composition.extractedResources comp opts).length = comp.Spec.Resources.length) := by
  have h1 : ∀ (comp : composition.Composition) (opts : composition.Options),
      comp.Spec.Mode = "Pipeline" → comp.Spec.Pipeline = [] →
      composition.extractedResources comp opts =
        composition.extractResources comp.Spec.Resources opts := by
    intro comp opts _ hpipe
    simp [composition.extractedResources, hpipe]
  refine ⟨h1, ?_⟩
  intro comp opts hmode hpipe
  rw [h1 comp opts hmode hpipe]
  simp [composition.extractResources]

/-- Witness for C10 at a pipeline-mode composition with an empty pipeline
and one static resource. -/
theorem c10_pipeline_empty_fallback_witness :
    (composition.extractedResources
      ⟨"av", "Composition", [], ⟨⟨"xav", "XK"⟩, "Pipeline", [⟨"r", [], [], []⟩], []⟩⟩
      ⟨true⟩).length
    = (composition.CompositionSpec.mk ⟨"xav", "XK"⟩ "Pipeline" [⟨"r", [], [], []⟩] []).Resources.length :=
  c10_pipeline_empty_fallback.2
    ⟨"av", "Composition", [], ⟨⟨"xav", "XK"⟩, "Pipeline", [⟨"r", [], [], []⟩], []⟩⟩
    ⟨true⟩ rfl rfl

theorem parsePatchesFromInterface_retained (vs : List Value)
    (info : composition.PatchInfo)
    (h : info ∈ composition.parsePatchesFromInterface vs) :
    info.XRDField ≠ "" ∨ info.MappedTo ≠ "" := by
  unfold composition.parsePatchesFromInterface at h
  rcases List.mem_filterMap.mp h with ⟨v, hv, hf⟩
  cases v with
  | map kvs =>
    dsimp only at hf
    split at hf
    case isTrue hcond =>
      cases hf
      simpa [composition.PatchInfo.XRDField, composition.PatchInfo.MappedTo,
        ← ne_eq, ← bne_iff_ne] using hcond
    case isFalse hcond => cases hf
  | null => cases hf
  | bool b => cases hf
  | int n => cases hf
  | str s => cases hf
  | seq s => cases hf

theorem mem_pipelineFold (opts : composition.Options) :
    ∀ (steps : List composition.PipelineStep)
      (acc : List composition.ManagedResource) (mr : composition.ManagedResource),
      mr ∈ steps.foldl (composition.pipelineStepFold opts) acc →
      mr ∈ acc ∨ ∃ resMap, mr = composition.parseResource resMap opts
  | [], acc, mr, h => Or.inl h
  | step :: rest, acc, mr, h => by
    rcases mem_pipelineFold opts rest _ mr h with hin | hex
    · unfold composition.pipelineStepFold at hin
      revert hin
      cases hl : step.Input.lookup "resources" with
      | none => exact Or.inl
      | some v =>
        cases v with
        | seq input =>
          intro hin
          rcases List.mem_append.mp hin with h1 | h2
          · exact Or.inl h1
          · refine Or.inr ?_
            rcases List.mem_filterMap.mp h2 with ⟨r, hr, hfr⟩
            cases r with
            | map resMap => exact ⟨resMap, (Option.some_inj.mp hfr).symm⟩
            | null => cases hfr
            | bool b => cases hfr
            | int n => cases hfr
            | str s => cases hfr
            | seq s => cases hfr
        | null => exact Or.inl
        | bool b => exact Or.inl
        | int n => exact Or.inl
        | str s => exact Or.inl
        | map m => exact Or.inl
    · exact Or.inr hex

theorem parseResource_patches_retained (resMap : List (String × Value))
    (opts : composition.Options) (info : composition.PatchInfo)
    (h : info ∈ (composition.parseResource resMap opts).Patches) :
    info.XRDField ≠ "" ∨ info.MappedTo ≠ "" := by
  unfold composition.parseResource at h
  dsimp only at h
  by_cases hs : opts.ShowPatches
  · rw [if_pos hs] at h
    revert h
    cases hl : resMap.lookup "patches" with
    | none => intro h; cases h
    | some v =>
      cases v with
      | seq patches => exact parsePatchesFromInterface_retained patches info
      | null => intro h; cases h
      | bool b => intro h; cases h
      | int n => intro h; cases h
      | str s => intro h; cases h
      | map m => intro h; cases h
  · rw [if_neg hs] at h
    cases h

/-- C1 counterexample: in the static-resource extraction mode a patch whose
from-path and to-path are both empty is retained: the resulting managed
resource's patch list holds a `PatchInfo` whose source and target fields are
both empty, refuting the claimed invariant for that mode. -/
theorem c1_patch_retention_counterexample :
    (composition.extractResources [⟨"r", [], [⟨"", "", "", none, []⟩], []⟩]
        ⟨true⟩).map composition.ManagedResource.Patches
      = [[⟨"", "", ""⟩]]
  ∧ (composition.PatchInfo.mk "" "" "").XRDField = ""
  ∧ (composition.PatchInfo.mk "" "" "").MappedTo = "" :=
  ⟨rfl, rfl, rfl⟩

/-- C1 amended: the retention invariant holds in the pipeline-input
generic-map extraction mode — every `PatchInfo` parsed there, and hence
every `PatchInfo` of every pipeline-extracted managed resource, has a
non-empty source or target field — while the static-resource mode performs
no filtering at all: it yields exactly one `PatchInfo` per patch,
a patch with both paths empty included. -/
theorem c1_patch_retention :
    (∀ (vs : List Value) (info : composition.PatchInfo),
        info ∈ composition.parsePatchesFromInterface vs →
        info.XRDField ≠ "" ∨ info.MappedTo ≠ "")
  ∧ (∀ (comp : composition.Composition) (opts : composition.Options)
        (mr : composition.ManagedResource) (info : composition.PatchInfo),
        mr ∈ composition.extractPipelineResources comp opts →
        info ∈ mr.Patches →
        info.XRDField ≠ "" ∨ info.MappedTo ≠ "")
  ∧ (∀ ps : List composition.Patch,
        (composition.extractPatches ps).length = ps.length) := by
  refine ⟨parsePatchesFromInterface_retained, ?_, ?_⟩
  · intro comp opts mr info hmr hinfo
    unfold composition.extractPipelineResources at hmr
    rcases mem_pipelineFold opts comp.Spec.Pipeline [] mr hmr with hin | ⟨resMap, rfl⟩
    · cases hin
    · exact parseResource_patches_retained resMap opts info hinfo
  · intro ps
    simp [composition.extractPatches]

/-- Witness for C1 at a generic patch mapping with a from-path. -/
theorem c1_patch_retention_witness :
    (composition.PatchInfo.mk "a" "" "Direct copy").XRDField ≠ ""
    ∨ (composition.PatchInfo.mk "a" "" "Direct copy").MappedTo ≠ "" :=
  c1_patch_retention.1 [.map [("fromFieldPath", .str "a")]]
    ⟨"a", "", "Direct copy"⟩ (List.Mem.head _)

/-- C3 counterexample: a typed patch with from-path and to-path set and no
combine does not classify as the direct-copy label when its type is neither
of the two composite-field-path types: the raw type string is returned. -/
theorem c3_transformation_counterexample :
    composition.formatTransformation
      ⟨"CombineFromComposite", "spec.size", "spec.forProvider.size", none, []⟩
      = "CombineFromComposite"
  ∧ ("CombineFromComposite" : String) ≠ "Direct copy" :=
  ⟨rfl, by decide⟩

/-- C3 amended: the transformation is the combine format string verbatim
when one is present; in the typed path the direct-copy label requires the
patch type to be one of the two composite-field-path types, the raw type
string being returned otherwise; in the generic-map path the direct-copy
label is used exactly when the from-path is non-empty and no combine
mapping is present, and a combine mapping's string format is kept
verbatim. -/
theorem c3_transformation_classification :
    (∀ (p : composition.Patch) (c : composition.Combine) (sf : composition.StringFmt),
        p.Combine = some c → c.String = some sf →
        composition.formatTransformation p = sf.Fmt)
  ∧ (∀ p : composition.Patch, p.Combine.bind (fun c => c.String) = none →
        p.type = "FromCompositeFieldPath" ∨ p.type = "ToCompositeFieldPath" →
        composition.formatTransformation p = "Direct copy")
  ∧ (∀ p : composition.Patch, p.Combine.bind (fun c => c.String) = none →
        p.type ≠ "FromCompositeFieldPath" → p.type ≠ "ToCompositeFieldPath" →
        composition.formatTransformation p = p.type)
  ∧ (∀ kvs : List (String × Value),
        (∀ cm, kvs.lookup "combine" ≠ some (.map cm)) →
        composition.getString kvs "fromFieldPath" ≠ "" →
        composition.parsePatchesFromInterface [.map kvs] =
          [⟨composition.getString kvs "fromFieldPath",
            composition.getString kvs "toFieldPath", "Direct copy"⟩])
  ∧ (∀ (kvs cm sm : List (String × Value)) (f : String),
        kvs.lookup "combine" = some (.map cm) →
        cm.lookup "string" = some (.map sm) →
        sm.lookup "fmt" = some (.str f) →
        (composition.getString kvs "fromFieldPath" ≠ ""
          ∨ composition.getString kvs "toFieldPath" ≠ "") →
        composition.parsePatchesFromInterface [.map kvs] =
          [⟨composition.getString kvs "fromFieldPath",
            composition.getString kvs "toFieldPath", f⟩]) := by
  refine ⟨?_, ?_, ?_, ?_, ?_⟩
  · intro p c sf h1 h2
    unfold composition.formatTransformation
    rw [h1]
    simp [h2]
  · intro p h1 h2
    unfold composition.formatTransformation
    rw [h1]
    rcases h2 with h | h <;> simp [h]
  · intro p h1 h2 h3
    unfold composition.formatTransformation
    rw [h1]
    simp [h2, h3]
  · intro kvs hnc hfrom
    unfold composition.parsePatchesFromInterface
    rw [List.filterMap]
    dsimp only
    rcases hl : kvs.lookup "combine" with _ | v
    · simp [hl, hfrom, bne_iff_ne.mpr hfrom]
    · cases v with
      | map cm => exact absurd hl (hnc cm)
      | null => simp [hl, hfrom, bne_iff_ne.mpr hfrom]
      | bool b => simp [hl, hfrom, bne_iff_ne.mpr hfrom]
      | int n => simp [hl, hfrom, bne_iff_ne.mpr hfrom]
      | str s => simp [hl, hfrom, bne_iff_ne.mpr hfrom]
      | seq s => simp [hl, hfrom, bne_iff_ne.mpr hfrom]
  · intro kvs cm sm f h1 h2 h3 hne
    unfold composition.parsePatchesFromInterface
    rw [List.filterMap]
    dsimp only
    simp only [h1, h2, h3]
    rcases hne with h | h <;> simp [bne_iff_ne.mpr h]

/-- Witness for C3 at the from-composite direct-copy scenario patch. -/
theorem c3_transformation_classification_witness :
    composition.formatTransformation
      ⟨"FromCompositeFieldPath", "spec.size", "spec.forProvider.size", none, []⟩
      = "Direct copy" :=
  c3_transformation_classification.2.1 _ rfl (Or.inl rfl)

theorem extractFieldList_required_mem (sn : Bool) (level : Nat) (req : List String) :
    ∀ (props : List (String × generator.OpenAPISchema)) (f : generator.Field),
      f ∈ generator.extractFieldList sn level req props →
      f.Required = generator.contains req f.Name := by
  intro props
  induction props with
  | nil =>
    intro f h
    simp [generator.extractFieldList] at h
  | cons hd tl ih =>
    obtain ⟨name, prop⟩ := hd
    intro f h
    rw [generator.extractFieldList] at h
    rcases List.mem_cons.mp h with rfl | h2
    · simp [generator.Field.Required, generator.Field.Name]
    · exact ih f h2

theorem extractFieldList_level_mem (sn : Bool) (level : Nat) (req : List String) :
    ∀ (props : List (String × generator.OpenAPISchema)) (f : generator.Field),
      f ∈ generator.extractFieldList sn level req props → f.Level = level := by
  intro props
  induction props with
  | nil =>
    intro f h
    simp [generator.extractFieldList] at h
  | cons hd tl ih =>
    obtain ⟨name, prop⟩ := hd
    intro f h
    rw [generator.extractFieldList] at h
    rcases List.mem_cons.mp h with rfl | h2
    · simp [generator.Field.Level]
    · exact ih f h2

/-- C5: the required flag of every extracted field at every nesting level is
exactly the membership test of the field's name in its immediate parent
object's required list, never an inherited one: the loop body tests against
the list it was handed for that level, and the top-level extraction hands
the located section's own list; the concrete two-level scenario shows a
top-level field named x marked required by its parent's list while the
nested field, also named x, stays unrequired because its own parent's list
is empty. -/
theorem c5_required_scoping :
    (∀ (sn : Bool) (level : Nat) (req : List String)
        (props : List (String × generator.OpenAPISchema)) (f : generator.Field),
        f ∈ generator.extractFieldList sn level req props →
        f.Required = generator.contains req f.Name)
  ∧ (∀ (schema target : generator.OpenAPISchema) (sec : String)
        (req0 : List String) (level : Nat) (sn : Bool) (f : generator.Field),
        schema.properties.lookup sec = some target →
        f ∈ generator.extractFields schema sec req0 level sn →
        f.Required = generator.contains target.required f.Name)
  ∧ generator.extractFields
      (.mk "object" ""
        [("spec",
          .mk "object" ""
            [("x",
              .mk "object" ""
                [("x", .mk "string" "" [] none [] none [] none none none none [])]
                none [] none [] none none none none [])]
            none ["x"] none [] none none none none [])]
        none [] none [] none none none none [])
      "spec" [] 0 true
    = [.mk "x" "object" "" true "" ""
        [.mk "x" "string" "" false "" "" [] 1] 0] := by
  refine ⟨extractFieldList_required_mem, ?_, ?_⟩
  · intro schema target sec req0 level sn f hl hf
    unfold generator.extractFields at hf
    rw [hl] at hf
    dsimp only at hf
    by_cases hp : target.properties.isEmpty
    · rw [if_pos hp] at hf
      cases hf
    · rw [if_neg hp] at hf
      exact extractFieldList_required_mem sn level target.required target.properties f hf
  · simp [generator.extractFields, generator.extractFieldList, generator.formatType,
      generator.formatDefault, generator.formatConstraints, generator.contains,
      generator.OpenAPISchema.type, generator.OpenAPISchema.description,
      generator.OpenAPISchema.properties, generator.OpenAPISchema.items,
      generator.OpenAPISchema.required, generator.OpenAPISchema.default,
      generator.OpenAPISchema.enum, generator.OpenAPISchema.minimum,
      generator.OpenAPISchema.maximum, generator.OpenAPISchema.minItems,
      generator.OpenAPISchema.maxItems, String.intercalate]

/-- Witness for C5 at a singleton property list with its name in the
required list. -/
theorem c5_required_scoping_witness :
    (generator.Field.mk "a" "string" "" true "" "" [] 0).Required
      = generator.contains ["a"] (generator.Field.mk "a" "string" "" true "" "" [] 0).Name :=
  c5_required_scoping.1 false 0 ["a"]
    [("a", .mk "string" "" [] none [] none [] none none none none [])]
    (.mk "a" "string" "" true "" "" [] 0)
    (by simp [generator.extractFieldList, generator.formatType, generator.formatDefault,
      generator.formatConstraints, generator.contains,
      generator.OpenAPISchema.type, generator.OpenAPISchema.description,
      generator.OpenAPISchema.properties, generator.OpenAPISchema.items,
      generator.OpenAPISchema.required, generator.OpenAPISchema.default,
      generator.OpenAPISchema.enum, generator.OpenAPISchema.minimum,
      generator.OpenAPISchema.maximum, generator.OpenAPISchema.minItems,
      generator.OpenAPISchema.maxItems, String.intercalate])

theorem specFieldLE_trans (a b c : generator.Field)
    (hab : generator.specFieldLE a b = true) (hbc : generator.specFieldLE b c = true) :
    generator.specFieldLE a c = true := by
  simp only [generator.specFieldLE, generator.specLess, Bool.not_eq_true',
    bne_iff_ne, ne_eq] at hab hbc ⊢
  cases hra : a.Required <;> cases hrb : b.Required <;> cases hrc : c.Required <;>
    simp_all <;>
    exact le_trans hab hbc

theorem specFieldLE_total (a b : generator.Field) :
    generator.specFieldLE a b || generator.specFieldLE b a := by
  simp only [generator.specFieldLE, generator.specLess, Bool.or_eq_true,
    Bool.not_eq_true', bne_iff_ne, ne_eq]
  cases hra : a.Required <;> cases hrb : b.Required <;> simp_all <;>
    [skip; skip] <;>
    · by_cases h : b.Name < a.Name
      · exact Or.inr (by simpa using asymm h)
      · exact Or.inl (by simpa using h)

theorem statusFieldLE_trans (a b c : generator.Field)
    (hab : generator.statusFieldLE a b = true) (hbc : generator.statusFieldLE b c = true) :
    generator.statusFieldLE a c = true := by
  simp only [generator.statusFieldLE, generator.statusLess, Bool.not_eq_true',
    decide_eq_false_iff_not] at hab hbc ⊢
  exact not_lt.mpr (le_trans (not_lt.mp hab) (not_lt.mp hbc))

theorem statusFieldLE_total (a b : generator.Field) :
    generator.statusFieldLE a b || generator.statusFieldLE b a := by
  simp only [generator.statusFieldLE, generator.statusLess, Bool.or_eq_true,
    Bool.not_eq_true', decide_eq_false_iff_not]
  by_cases h : b.Name < a.Name
  · exact Or.inr (asymm h)
  · exact Or.inl h

/-- C7: the pre-render sort of the top-level spec field list orders by
required descending then name ascending — every earlier field either has
the required flag when a later one does, or shares the flag and has an
alphabetically smaller-or-equal name — the status sort orders by name
ascending only, both sorts permute their input, and the spec sort is
idempotent: it leaves an already-sorted list identical, hence sorting twice
equals sorting once. -/
theorem c7_prerender_sort :
    (∀ l : List generator.Field,
        (generator.sortSpecFields l).Pairwise
          (fun a b => (b.Required = true → a.Required = true)
            ∧ (a.Required = b.Required → a.Name ≤ b.Name)))
  ∧ (∀ l : List generator.Field, (generator.sortSpecFields l).Perm l)
  ∧ (∀ l : List generator.Field,
        (generator.sortStatusFields l).Pairwise (fun a b => a.Name ≤ b.Name))
  ∧ (∀ l : List generator.Field, (generator.sortStatusFields l).Perm l)
  ∧ (∀ l : List generator.Field,
        l.Pairwise (fun a b => generator.specFieldLE a b = true) →
        generator.sortSpecFields l = l)
  ∧ (∀ l : List generator.Field,
        generator.sortSpecFields (generator.sortSpecFields l)
          = generator.sortSpecFields l) := by
  have himp : ∀ a b : generator.Field, generator.specFieldLE a b = true →
      (b.Required = true → a.Required = true)
        ∧ (a.Required = b.Required → a.Name ≤ b.Name) := by
    intro a b h
    simp only [generator.specFieldLE, generator.specLess, Bool.not_eq_true',
      bne_iff_ne, ne_eq] at h
    cases hra : a.Required <;> cases hrb : b.Required <;> simp_all
  refine ⟨?_, ?_, ?_, ?_, ?_, ?_⟩
  · intro l
    exact (List.sorted_mergeSort specFieldLE_trans specFieldLE_total l).imp
      (fun h => himp _ _ h)
  · intro l
    exact List.mergeSort_perm l generator.specFieldLE
  · intro l
    unfold generator.sortStatusFields
    by_cases h : 0 < l.length
    · rw [if_pos h]
      exact (List.sorted_mergeSort statusFieldLE_trans statusFieldLE_total l).imp
        (fun h2 => by
          simpa [generator.statusFieldLE, generator.statusLess,
            Bool.not_eq_true', decide_eq_false_iff_not, not_lt] using h2)
    · rw [if_neg h]
      have : l = [] := by
        cases l with
        | nil => rfl
        | cons x xs => simp at h
      simp [this]
  · intro l
    unfold generator.sortStatusFields
    by_cases h : 0 < l.length
    · rw [if_pos h]
      exact List.mergeSort_perm l generator.statusFieldLE
    · rw [if_neg h]
  · intro l h
    exact List.mergeSort_of_sorted h
  · intro l
    exact List.mergeSort_of_sorted
      (List.sorted_mergeSort specFieldLE_trans specFieldLE_total l)

/-- Witness for C7: the spec sort leaves a concrete already-sorted
two-field list (required a before optional b) identical. -/
theorem c7_prerender_sort_witness :
    generator.sortSpecFields
      [.mk "a" "" "" true "" "" [] 0, .mk "b" "" "" false "" "" [] 0]
    = [.mk "a" "" "" true "" "" [] 0, .mk "b" "" "" false "" "" [] 0] :=
  c7_prerender_sort.2.2.2.2.1
    [.mk "a" "" "" true "" "" [] 0, .mk "b" "" "" false "" "" [] 0]
    (by simp [List.pairwise_cons, generator.specFieldLE, generator.specLess,
      generator.Field.Required, generator.Field.Name])

theorem extractFieldList_nested_empty (level : Nat) (req : List String) :
    ∀ (props : List (String × generator.OpenAPISchema)) (f : generator.Field),
      f ∈ generator.extractFieldList false level req props → f.Nested = [] := by
  intro props
  induction props with
  | nil =>
    intro f h
    simp [generator.extractFieldList] at h
  | cons hd tl ih =>
    obtain ⟨name, prop⟩ := hd
    intro f h
    rw [generator.extractFieldList] at h
    rcases List.mem_cons.mp h with rfl | h2
    · simp [generator.Field.Nested]
    · exact ih f h2

theorem extractFieldList_length (sn : Bool) (level : Nat) (req : List String) :
    ∀ props : List (String × generator.OpenAPISchema),
      (generator.extractFieldList sn level req props).length = props.length := by
  intro props
  induction props with
  | nil => simp [generator.extractFieldList]
  | cons hd tl ih =>
    obtain ⟨name, prop⟩ := hd
    rw [generator.extractFieldList]
    simp [ih]

/-- C8: with the nested option off, every extracted field carries an empty
nested list, whatever the schema depth; with it on, extraction yields
exactly one field per declared property at each level — both the shared
loop body and the top-level section extraction preserve the property count —
and every field's nested children are recorded one level deeper than the
field itself. -/
theorem c8_show_nested :
    (∀ (level : Nat) (req : List String)
        (props : List (String × generator.OpenAPISchema)) (f : generator.Field),
        f ∈ generator.extractFieldList false level req props → f.Nested = [])
  ∧ (∀ (schema : generator.OpenAPISchema) (sec : String) (req : List String)
        (level : Nat) (f : generator.Field),
        f ∈ generator.extractFields schema sec req level false → f.Nested = [])
  ∧ (∀ (level : Nat) (req : List String)
        (props : List (String × generator.OpenAPISchema)),
        (generator.extractFieldList true level req props).length = props.length)
  ∧ (∀ (schema : generator.OpenAPISchema) (sec : String) (req : List String)
        (level : Nat),
        (generator.extractFields schema sec req level true).length =
          (match schema.properties.lookup sec with
           | some t => t.properties.length
           | none => 0))
  ∧ (∀ (sn : Bool) (level : Nat) (req : List String)
        (props : List (String × generator.OpenAPISchema)) (f : generator.Field),
        f ∈ generator.extractFieldList sn level req props →
        f.Level = level ∧ ∀ g ∈ f.Nested, g.Level = level + 1) := by
  refine ⟨extractFieldList_nested_empty, ?_, extractFieldList_length true, ?_, ?_⟩
  · intro schema sec req level f hf
    unfold generator.extractFields at hf
    cases hl : schema.properties.lookup sec with
    | none => rw [hl] at hf; cases hf
    | some target =>
      rw [hl] at hf
      dsimp only at hf
      by_cases hp : target.properties.isEmpty
      · rw [if_pos hp] at hf
        cases hf
      · rw [if_neg hp] at hf
        exact extractFieldList_nested_empty level target.required target.properties f hf
  · intro schema sec req level
    unfold generator.extractFields
    cases hl : schema.properties.lookup sec with
    | none => simp
    | some target =>
      dsimp only
      by_cases hp : target.properties.isEmpty
      · rw [if_pos hp]
        simp [List.isEmpty_iff.mp hp]
      · rw [if_neg hp]
        simp [extractFieldList_length]
  · intro sn level req props
    induction props with
    | nil =>
      intro f h
      simp [generator.extractFieldList] at h
    | cons hd tl ih =>
      obtain ⟨name, prop⟩ := hd
      intro f h
      rw [generator.extractFieldList] at h
      rcases List.mem_cons.mp h with rfl | h2
      · refine ⟨by simp [generator.Field.Level], ?_⟩
        intro g hg
        simp only [generator.Field.Nested] at hg
        by_cases hc : (sn && prop.type == "object" && !prop.properties.isEmpty) = true
        · rw [if_pos hc] at hg
          exact extractFieldList_level_mem sn (level + 1) prop.required prop.properties g hg
        · rw [if_neg hc] at hg
          cases hg
      · exact ih f h2

/-- Witness for C8: the nested-off extraction of a one-property object
yields a field with no nested children. -/
theorem c8_show_nested_witness :
    (generator.Field.mk "a" "string" "" false "" "" [] 0).Nested = [] :=
  c8_show_nested.1 0 []
    [("a", .mk "string" "" [] none [] none [] none none none none [])]
    (.mk "a" "string" "" false "" "" [] 0)
    (by simp [generator.extractFieldList, generator.formatType, generator.formatDefault,
      generator.formatConstraints, generator.contains,
      generator.OpenAPISchema.type, generator.OpenAPISchema.description,
      generator.OpenAPISchema.properties, generator.OpenAPISchema.items,
      generator.OpenAPISchema.required, generator.OpenAPISchema.default,
      generator.OpenAPISchema.enum, generator.OpenAPISchema.minimum,
      generator.OpenAPISchema.maximum, generator.OpenAPISchema.minItems,
      generator.OpenAPISchema.maxItems, String.intercalate])
